import Mathlib

/-!
Verification of the sharded-collection module (`pyzoo/zoo/orca/data/shard.py`).

The Python objects handled by the module (pandas DataFrames, numpy arrays,
lists, tuples, dicts, scalars) are shallowly embedded as the mutual
inductive `PyObj`/`PyList`.  A Spark RDD is a list of partitions, each a
list of elements.  The operations of `XShards`/`SparkXShards` are
translated function by function below; stateful caching behaviour is
carried by an explicit `ShardsState` record.
-/

/-- A Python exception, restricted to the kinds raised by the module. -/
inductive PyErr where
  | assertionError (msg : String)
  | valueError (msg : String)
  | typeError (msg : String)
  | exception (msg : String)
  | indexError
  deriving DecidableEq, Repr

mutual
/-- A Python object as far as `shard.py` is concerned: scalars, strings,
lists, tuples, dicts, numpy arrays (rank >= 1 keeps the leading-axis slices,
rank 0 is a scalar array), and pandas DataFrames (a row is stored as the
`PyObj.pylist` of its values, matching `row.values.tolist()`). -/
inductive PyObj where
  | int (n : Int)
  | str (s : String)
  | pylist (xs : PyList)
  | tup (xs : PyList)
  | pydict (keys : List String) (vals : PyList)
  | ndarr (dtype : String) (xs : PyList)
  | ndscalar (dtype : String) (v : PyObj)
  | df (cols : List String) (dtypes : List String) (rows : PyList)
  deriving DecidableEq, Repr
/-- A list of `PyObj` (mutual with `PyObj` so that decidable equality can
be derived). -/
inductive PyList where
  | nil
  | cons (hd : PyObj) (tl : PyList)
  deriving DecidableEq, Repr
end

/-- Convert a `PyList` to a Lean list. -/
def PyList.toList : PyList → List PyObj
  | .nil => []
  | .cons h t => h :: PyList.toList t

/-- Convert a Lean list to a `PyList`. -/
def PyList.ofList : List PyObj → PyList
  | [] => .nil
  | h :: t => .cons h (PyList.ofList t)

/-- An RDD, seen as its list of partitions. -/
abbrev RDD (α : Type) := List (List α)

/-- `rdd.collect()`: all elements, in partition order. -/
def collectR {α : Type} (r : RDD α) : List α := r.flatten

/-- `rdd.getNumPartitions()`. -/
def numPartitionsR {α : Type} (r : RDD α) : Nat := r.length

/-- `rdd.first()`: the first element of the first non-empty partition. -/
def firstElemR (r : RDD PyObj) : Option PyObj := (collectR r).head?

/-- `rdd.map(f)` (element-wise; also models the element-wise generator used
inside `transform_shard`). -/
def mapRDD {α β : Type} (f : α → β) (r : RDD α) : RDD β := r.map (List.map f)

/-- `rdd.flatMap(f)`. -/
def flatMapR {α β : Type} (f : α → List β) (r : RDD α) : RDD β :=
  r.map (fun p => (p.map f).flatten)

/-- Split `xs` into `n` contiguous chunks whose sizes differ by at most one
(each step takes the ceiling of `remaining/chunks-left`).  This is the
deterministic model used for Spark's distribution of a list of elements
over `n` fresh partitions (`repartition`, `parallelize`) and — applied to
the list of partitions — for `coalesce` grouping: Spark guarantees no more
than an order-preserving, roughly even split, which this realises. -/
def balancedChunks {α : Type} : Nat → List α → List (List α)
  | 0, _ => []
  | n + 1, xs =>
    let k := (xs.length + n) / (n + 1)
    xs.take k :: balancedChunks n (xs.drop k)

/-- `rdd.repartition(n)`: full reshuffle into `n` partitions. -/
def sparkRepartition {α : Type} (n : Nat) (r : RDD α) : RDD α :=
  balancedChunks n (collectR r)

/-- `rdd.coalesce(n)`: merge adjacent partitions into `n` groups (no-op when
the RDD already has at most `n` partitions). -/
def coalesceR {α : Type} (n : Nat) (r : RDD α) : RDD α :=
  if r.length ≤ n then r else (balancedChunks n r).map List.flatten

/-- `sc.parallelize(xs)` with default parallelism `n`. -/
def parallelizeR {α : Type} (n : Nat) (xs : List α) : RDD α := balancedChunks n xs

/-- Model of CPython `portable_hash` on the key types that actually occur:
the hash of a small int is the int itself; strings hash to a deterministic
fold of their characters.  (Unhashable keys, e.g. lists, are outside the
modelled domain.) -/
def pyHash : PyObj → Int
  | .int m => m
  | .str s => s.toList.foldl (fun h c => h * 31 + (c.toNat : Int)) 7
  | _ => 0

/-- The bucket `portable_hash(key) % n` used by `rdd.partitionBy(n)`
(Python `%` on a positive divisor is non-negative, matching `Int.emod`). -/
def keyBucket (n : Nat) (k : PyObj) : Nat := ((pyHash k) % (n : Int)).toNat

/-- `rdd.partitionBy(n)` on a keyed RDD: bucket `i` receives exactly the
pairs whose key hashes to `i`. -/
def partitionByR {α : Type} (n : Nat) (kr : RDD (PyObj × α)) : RDD (PyObj × α) :=
  (List.range n).map (fun i => (collectR kr).filter (fun kv => keyBucket n kv.1 == i))

/-- `rdd.zip(other)` (pyspark): defined when the two RDDs have the same
number of partitions and the same number of elements in each partition;
otherwise the job fails at execution time. -/
def zipRdd {α β : Type} (a : RDD α) (b : RDD β) : Except String (RDD (α × β)) :=
  if a.length == b.length && (a.zip b).all (fun pq => pq.1.length == pq.2.length) then
    .ok ((a.zip b).map (fun pq => pq.1.zip pq.2))
  else
    .error "Can only zip RDDs with the same number of elements in each partition"

/-- `get_class_name` (from `zoo.orca.data.utils`): the class name of an
element, as used by the string dispatch in `repartition`/`partition_by`. -/
def get_class_name : PyObj → String
  | .int _ => "int"
  | .str _ => "str"
  | .pylist _ => "list"
  | .tup _ => "tuple"
  | .pydict _ _ => "dict"
  | .ndarr _ _ => "numpy.ndarray"
  | .ndscalar _ _ => "numpy.ndarray"
  | .df _ _ _ => "pandas.core.frame.DataFrame"

/-- The rows of a DataFrame element (empty for any other element). -/
def dfRowsOf : PyObj → List PyObj
  | .df _ _ rows => rows.toList
  | _ => []

/-- The column names of a DataFrame element. -/
def dfColsOf : PyObj → List String
  | .df cols _ _ => cols
  | _ => []

/-- The column dtypes of a DataFrame element. -/
def dfDtypesOf : PyObj → List String
  | .df _ dts _ => dts
  | _ => []

/-- The leading-axis slices of a rank >= 1 numpy array element. -/
def ndItemsOf : PyObj → List PyObj
  | .ndarr _ xs => xs.toList
  | _ => []

/-- The dtype of a numpy array element. -/
def ndDtypeOf : PyObj → String
  | .ndarr dt _ => dt
  | .ndscalar dt _ => dt
  | _ => ""

/-- The items of a list element. -/
def listItemsOf : PyObj → List PyObj
  | .pylist xs => xs.toList
  | _ => []

/-- `data[i]` for the subscriptable elements the module indexes into
(lists and tuples in `split`, arrays by position); the callers below only
apply it under guards that keep `i` in range. -/
def pyGetIdx (i : Nat) : PyObj → PyObj
  | .pylist xs => xs.toList.getD i (.int 0)
  | .tup xs => xs.toList.getD i (.int 0)
  | .ndarr _ xs => xs.toList.getD i (.int 0)
  | _ => .int 0

/-- The keyed-row flatMap of the DataFrame increase path of `repartition`:
`df.apply(lambda row: (row[0], row.values.tolist()), axis=1).values.tolist()`.
`row[0]` is the first column's value; the row itself is the value list. -/
def dfKeyedRows (o : PyObj) : List (PyObj × PyObj) :=
  (dfRowsOf o).map (fun row => (pyGetIdx 0 row, row))

/-- `merge_rows` of `repartition`: rebuild one DataFrame per bucket from the
cached schema; a bucket with no rows returns the exhausted iterator, i.e. an
empty partition. -/
def mergeRows (cols dts : List String) (p : List (PyObj × PyObj)) : List PyObj :=
  let data := p.map (fun value => value.2)
  if data.isEmpty then [] else [.df cols dts (PyList.ofList data)]

/-- `combine_df` of `repartition`: `pd.concat` of all DataFrames of a
coalesced partition (an empty partition stays empty). -/
def combineDf (p : List PyObj) : List PyObj :=
  match p with
  | [] => []
  | x :: _ => [.df (dfColsOf x) (dfDtypesOf x) (PyList.ofList ((p.map dfRowsOf).flatten))]

/-- The DataFrame branch of `SparkXShards.repartition` (`cols`/`dts` are the
cached schema, read off the first element). -/
def dfRepartition (cols dts : List String) (r : RDD PyObj) (n : Nat) :
    Except PyErr (RDD PyObj) :=
  if n > r.length then
    .ok ((partitionByR n (flatMapR dfKeyedRows r)).map (mergeRows cols dts))
  else
    .ok ((coalesceR n r).map combineDf)

/-- The list branch of `SparkXShards.repartition`: increase flattens the
list elements and regroups each new partition into a single list; decrease
coalesces and concatenates with `reduce(lambda l1, l2: l1 + l2)`, which
raises `TypeError` on an empty partition. -/
def listRepartition (r : RDD PyObj) (n : Nat) : Except PyErr (RDD PyObj) :=
  if n > r.length then
    .ok ((sparkRepartition n (flatMapR listItemsOf r)).map
      (fun p => [.pylist (PyList.ofList p)]))
  else
    if (coalesceR n r).all (fun p => !p.isEmpty) then
      .ok ((coalesceR n r).map
        (fun p => [.pylist (PyList.ofList ((p.map listItemsOf).flatten))]))
    else
      .error (.typeError "reduce of empty iterable with no initial value")

/-- The numpy branch of `SparkXShards.repartition` for rank >= 1 arrays
(`dtype` is the first element's dtype): increase flattens leading-axis
slices, regroups, and restacks each partition into one array cast to
`dtype`; decrease coalesces and `np.concatenate`s, which raises
`ValueError` on an empty partition. -/
def ndRepartition (dtype : String) (r : RDD PyObj) (n : Nat) : Except PyErr (RDD PyObj) :=
  if n > r.length then
    .ok ((sparkRepartition n (flatMapR ndItemsOf r)).map
      (fun p => [.ndarr dtype (PyList.ofList p)]))
  else
    if (coalesceR n r).all (fun p => !p.isEmpty) then
      .ok ((coalesceR n r).map (fun p =>
        [.ndarr (ndDtypeOf (p.headD (.int 0))) (PyList.ofList ((p.map ndItemsOf).flatten))]))
    else
      .error (.valueError "need at least one array to concatenate")

/-- `SparkXShards.repartition(num_partitions)` on the data: dispatch on the
class name of the first element (`_get_class_name`; the DataFrame branch
also reads the cached schema `_get_schema` off the first element), falling
back to a plain `rdd.repartition` for any other kind, including rank-0
arrays.  `rdd.first()` on an empty RDD raises. -/
def repartitionX (r : RDD PyObj) (n : Nat) : Except PyErr (RDD PyObj) :=
  match firstElemR r with
  | none => .error (.valueError "RDD is empty")
  | some e =>
    if get_class_name e = "pandas.core.frame.DataFrame" then
      dfRepartition (dfColsOf e) (dfDtypesOf e) r n
    else if get_class_name e = "list" then
      listRepartition r n
    else if get_class_name e = "numpy.ndarray" then
      match e with
      | .ndarr dt _ => ndRepartition dt r n
      | _ => .ok (sparkRepartition n r)
    else
      .ok (sparkRepartition n r)

/-- `len(data) if isinstance(data, list) or isinstance(data, tuple) else 1`,
the per-element split length used by `SparkXShards.split`. -/
def pySplitLen : PyObj → Nat
  | .pylist xs => xs.toList.length
  | .tup xs => xs.toList.length
  | _ => 1

/-- `SparkXShards.split()`: collect every element's split length; raise if
they are not all equal (`list_split_length[0]` on an empty collection is an
`IndexError`); project out each position when the common length exceeds 1,
else return `[self]`. -/
def splitX (r : RDD PyObj) : Except PyErr (List (RDD PyObj)) :=
  match (collectR r).map pySplitLen with
  | [] => .error .indexError
  | l0 :: rest =>
    if (l0 :: rest).count l0 ≠ (l0 :: rest).length then
      .error (.exception "Cannot split this XShards because its partitions have different split length")
    else if l0 > 1 then
      .ok ((List.range l0).map (fun i => mapRDD (pyGetIdx i) r))
    else
      .ok [r]

/-- The caching state of a `SparkXShards`: its RDD, the user pin
(`user_cached`), the client-side persistence flag (`rdd.is_cached`), and
whether the JVM-side cache block is already gone, in which case
`rdd.unpersist()` raises `Py4JError`. -/
structure ShardsState where
  rdd : RDD PyObj
  user_cached : Bool
  cached : Bool
  jvm_released : Bool
  deriving DecidableEq, Repr

/-- `SparkXShards.__init__(rdd, transient)`: `user_cached = False`; a
non-transient collection calls `rdd.cache()` (eager mode additionally runs
`compute()`, which has no effect on this state). -/
def mkShards (r : RDD PyObj) (transient : Bool) : ShardsState :=
  { rdd := r, user_cached := false, cached := !transient, jvm_released := false }

/-- `rdd.unpersist()`: raises `Py4JError` (the only error it raises) when
the JVM-side cache is already released. -/
def rddUnpersist (s : ShardsState) : Except Unit ShardsState :=
  if s.jvm_released then .error () else .ok { s with cached := false }

/-- `SparkXShards.uncache()`: clear the user pin; if the RDD is marked
cached, try to unpersist and swallow (print) a `Py4JError`. -/
def ShardsState.uncacheS (s : ShardsState) : ShardsState :=
  let s1 := { s with user_cached := false }
  if s1.cached then
    match rddUnpersist s1 with
    | .ok s2 => s2
    | .error _ => s1
  else s1

/-- `SparkXShards._uncache()`: demote the cache unless the user pinned it. -/
def ShardsState.uncacheInternal (s : ShardsState) : ShardsState :=
  if s.user_cached then s else s.uncacheS

/-- `SparkXShards.transform_shard(func)`: build the transformed collection
(non-transient, so system-cached), demote the source, return both the
updated source state and the new collection. -/
def ShardsState.transform_shard (s : ShardsState) (f : PyObj → PyObj) :
    ShardsState × ShardsState :=
  let transformed := mkShards (mapRDD f s.rdd) false
  (s.uncacheInternal, transformed)

/-- A reference to one store-resident partition (`RayPartition`). -/
structure RayPartition where
  object_id : Nat
  node_ip : String
  object_store_address : String
  deriving DecidableEq, Repr

/-- The operand of `zip`: either another `SparkXShards` or a collection of
the other substrate (which fails the `isinstance` assertion). -/
inductive AnyXShards where
  | spark (s : ShardsState)
  | ray (parts : List RayPartition)
  deriving DecidableEq, Repr

/-- `SparkXShards.zip(other)`: assert the operand is a `SparkXShards`,
assert equal partition counts, then zip; any failure of the underlying
pairing (detected when the eager-mode construction materialises the zipped
RDD) is caught and re-raised as a `ValueError`.  Cache demotion of both
operands happens after the zipped collection is built.  Returns the updated
states of `self` and `other` alongside the result. -/
def ShardsState.zipShards (s : ShardsState) (other : AnyXShards) :
    ShardsState × AnyXShards × Except PyErr ShardsState :=
  match other with
  | .ray _ => (s, other, .error (.assertionError "other should be a SparkXShards"))
  | .spark o =>
    if s.rdd.length ≠ o.rdd.length then
      (s, other, .error (.assertionError
        "The two SparkXShards should have the same number of partitions"))
    else
      match zipRdd s.rdd o.rdd with
      | .ok zr =>
        (s.uncacheInternal, .spark o.uncacheInternal,
          .ok (mkShards (mapRDD (fun ab => PyObj.tup (.cons ab.1 (.cons ab.2 .nil))) zr) false))
      | .error _ =>
        (s, other, .error (.valueError
          "The two SparkXShards should have the same number of elements in each partition"))

/-- The plasma object store: object id -> serialized partition content. -/
structure PlasmaStore where
  entries : List (Nat × List PyObj)
  deriving DecidableEq, Repr

/-- `client.contains(object_id)`. -/
def PlasmaStore.containsId (st : PlasmaStore) (oid : Nat) : Bool :=
  st.entries.any (fun e => e.1 == oid)

/-- `client.put(res, target_id)`: store the content under `target_id` and
return the id the write went to. -/
def PlasmaStore.putObj (st : PlasmaStore) (oid : Nat) (content : List PyObj) :
    Nat × PlasmaStore :=
  (oid, ⟨st.entries ++ [(oid, content)]⟩)

/-- `client.get`-style lookup, used by the store-side `collect`. -/
def PlasmaStore.getObj (st : PlasmaStore) (oid : Nat) : Option (List PyObj) :=
  (st.entries.find? (fun e => e.1 == oid)).map (fun e => e.2)

/-- The body of `put_to_plasma(ids)` for one partition: look up the
pre-generated id for this partition index (`ids[index]`), skip the write if
the store already holds that object, otherwise write and check the returned
id against the pre-generated one; yield `(target_id, node_ip)`. -/
def putToPlasmaPart (ids : List Nat) (nodeIp : Nat → String) (index : Nat)
    (st : PlasmaStore) (p : List PyObj) : Except PyErr (PlasmaStore × (Nat × String)) :=
  match ids[index]? with
  | none => .error .indexError
  | some target_id =>
    if st.containsId target_id then
      .ok (st, (target_id, nodeIp index))
    else if (st.putObj target_id p).1 = target_id then
      .ok ((st.putObj target_id p).2, (target_id, nodeIp index))
    else
      .error (.assertionError "Errors occurred when putting data into plasma object store")

/-- `rdd.mapPartitionsWithIndex(put_to_plasma(ids)).collect()`: run the
per-partition write over every partition in index order, threading the
store. -/
def putToPlasmaAll (ids : List Nat) (nodeIp : Nat → String) :
    Nat → PlasmaStore → RDD PyObj → Except PyErr (PlasmaStore × List (Nat × String))
  | _, st, [] => .ok (st, [])
  | index, st, p :: ps =>
    match putToPlasmaPart ids nodeIp index st p with
    | .error e => .error e
    | .ok (st1, pair) =>
      match putToPlasmaAll ids nodeIp (index + 1) st1 ps with
      | .error e => .error e
      | .ok (st2, pairs) => .ok (st2, pair :: pairs)

/-- `object_id_node_ips.sort(key=lambda x: x[1])`: stable sort by node ip
(insertion sort, which is stable like Python's sort). -/
def insertByIp (x : Nat × String) : List (Nat × String) → List (Nat × String)
  | [] => [x]
  | y :: ys => if x.2 < y.2 then x :: y :: ys else y :: insertByIp x ys

/-- Stable sort of the `(object_id, node_ip)` pairs by node ip. -/
def sortByIp : List (Nat × String) → List (Nat × String)
  | [] => []
  | x :: xs => insertByIp x (sortByIp xs)

/-- `SparkXShards.to_ray()`: pre-generate one object id per partition index
(`ids`, fixed before any write), write every partition idempotently,
uncache the source, sort the `(id, ip)` pairs by node ip, and wrap them as
`RayPartition`s.  `nodeIp` gives the deterministic worker ip per partition
index; `addr` is the object store address. -/
def toRay (ids : List Nat) (nodeIp : Nat → String) (addr : String)
    (st : PlasmaStore) (s : ShardsState) :
    Except PyErr (PlasmaStore × ShardsState × List RayPartition) :=
  match putToPlasmaAll ids nodeIp 0 st s.rdd with
  | .error e => .error e
  | .ok (st1, pairs) =>
    let s1 := s.uncacheS
    let sorted := sortByIp pairs
    .ok (st1, s1, sorted.map (fun idip => ⟨idip.1, idip.2, addr⟩))

/-- `RayXShards.collect()` over the partitions produced by the handoff.
Modelled from the spec: `RayPartition`/`RayRdd` live outside this module;
the spec says collect "fetches and concatenates all referenced partitions'
contents, in ref order". -/
def rayCollect (st : PlasmaStore) (parts : List RayPartition) : List PyObj :=
  (parts.map (fun p => (st.getObj p.object_id).getD [])).flatten

/-- Whether `type(data) in {list, tuple, dict}` (the supported structured
input types of `XShards.partition`). -/
def isStructType : PyObj → Bool
  | .pylist _ => true
  | .tup _ => true
  | .pydict _ _ => true
  | _ => false

mutual
/-- `nest.flatten`: the leaves of a nested list/tuple/dict structure, in
traversal order (dict values in stored key order). -/
def nestFlatten : PyObj → List PyObj
  | .pylist xs => nestFlattenList xs
  | .tup xs => nestFlattenList xs
  | .pydict _ vs => nestFlattenList vs
  | o => [o]
/-- `nest.flatten` over the children of a structure node. -/
def nestFlattenList : PyList → List PyObj
  | .nil => []
  | .cons h t => nestFlatten h ++ nestFlattenList t
end

mutual
/-- `nest.pack_sequence_as(structure, flat)`: rebuild `structure` consuming
`flat` leaf by leaf; returns the packed object and the unconsumed leaves. -/
def packSeqAs : PyObj → List PyObj → PyObj × List PyObj
  | .pylist xs, fl =>
    let r := packSeqAsList xs fl
    (.pylist r.1, r.2)
  | .tup xs, fl =>
    let r := packSeqAsList xs fl
    (.tup r.1, r.2)
  | .pydict ks vs, fl =>
    let r := packSeqAsList vs fl
    (.pydict ks r.1, r.2)
  | _, fl => (fl.headD (.int 0), fl.tail)
/-- `pack_sequence_as` over the children of a structure node. -/
def packSeqAsList : PyList → List PyObj → PyList × List PyObj
  | .nil, fl => (.nil, fl)
  | .cons h t, fl =>
    let r1 := packSeqAs h fl
    let r2 := packSeqAsList t r1.2
    (.cons r1.1 r2.1, r2.2)
end

/-- Python `len(x)`: length of sized objects, `TypeError` otherwise (in
particular for ints and rank-0 arrays). -/
def pyLen : PyObj → Except PyErr Nat
  | .pylist xs => .ok xs.toList.length
  | .tup xs => .ok xs.toList.length
  | .pydict ks _ => .ok ks.length
  | .str s => .ok s.length
  | .ndarr _ xs => .ok xs.toList.length
  | .ndscalar _ _ => .error (.typeError "len of unsized object")
  | .df _ _ rows => .ok rows.toList.length
  | .int _ => .error (.typeError "object of type int has no len")

/-- The chunk loop of `np.array_split`: `k` chunks remain, the first `r` of
size `l + 1`, the rest of size `l`. -/
def arraySplitGo {α : Type} (l : Nat) : Nat → Nat → List α → List (List α)
  | 0, _, _ => []
  | k + 1, r, xs =>
    if 0 < r then xs.take (l + 1) :: arraySplitGo l k (r - 1) (xs.drop (l + 1))
    else xs.take l :: arraySplitGo l k 0 (xs.drop l)

/-- `np.array_split(xs, n)` along the leading axis: `n` contiguous sections,
`len % n` of size `len // n + 1` followed by the rest of size `len // n`. -/
def arraySplit {α : Type} (xs : List α) (n : Nat) : List (List α) :=
  arraySplitGo (xs.length / n) n (xs.length % n) xs

/-- `np.array_split(x, n)` on one flattened leaf: defined for rank >= 1
arrays, which is the only leaf kind the module supports (scalar leaves have
already failed `len`; other sized leaf kinds are outside the modelled
domain and mapped to an error). -/
def leafSplit (n : Nat) : PyObj → Except PyErr (List PyObj)
  | .ndarr dt xs => .ok ((arraySplit xs.toList n).map (fun p => .ndarr dt (PyList.ofList p)))
  | _ => .error (.typeError "unsupported leaf for array_split")

/-- The leaf loop of `XShards.partition`: for each flattened leaf, `len(x)`
(a `TypeError` for unsized leaves) must equal the first leaf's length
(otherwise the assertion fails), and the leaf is split into `n` parts. -/
def splitLeaves (n : Nat) (data_length : Nat) :
    List PyObj → Except PyErr (List (List PyObj))
  | [] => .ok []
  | x :: xs =>
    match pyLen x with
    | .error e => .error e
    | .ok lx =>
      if lx = data_length then
        match leafSplit n x with
        | .error e => .error e
        | .ok parts =>
          match splitLeaves n data_length xs with
          | .error e => .error e
          | .ok rest => .ok (parts :: rest)
      else
        .error (.assertionError
          "the ndarrays in data must all have the same size in first dimension")

/-- `XShards.partition(data)` with `total_core_num = node_num * core_num`:
a bare ndarray is `np.array_split` into `total_core_num` sections and
parallelized; a list/tuple/dict structure is flattened, every leaf is
checked to share the first leaf's leading dimension and split, the parts
are regrouped per target index and packed back into the input's shape; any
other input fails the supported-type assertion (a rank-0 array passes the
`isinstance(data, np.ndarray)` check but `np.array_split` raises on it). -/
def partitionX (total_core_num : Nat) (data : PyObj) : Except PyErr (RDD PyObj) :=
  match data with
  | .ndarr dt xs =>
    .ok (parallelizeR total_core_num
      ((arraySplit xs.toList total_core_num).map (fun p => .ndarr dt (PyList.ofList p))))
  | .ndscalar _ _ => .error .indexError
  | d =>
    if isStructType d then
      match nestFlatten d with
      | [] => .error .indexError
      | f0 :: rest =>
        match pyLen f0 with
        | .error e => .error e
        | .ok data_length =>
          match splitLeaves total_core_num data_length (f0 :: rest) with
          | .error e => .error e
          | .ok leafParts =>
            let shards := (List.range total_core_num).map
              (fun idx => leafParts.map (fun ps => ps.getD idx (.int 0)))
            let packed := shards.map (fun sh => (packSeqAs d sh).1)
            .ok (parallelizeR total_core_num packed)
    else
      .error (.assertionError "data must be an ndarray or a list, tuple or dict of ndarrays")

/-- The per-element content an element contributes to `collect()` when the
reshaping engine flattens it: the rows of a DataFrame, the leading-axis
slices of a rank >= 1 array, the items of a list, and the element itself
for every other kind. -/
def elemContent : PyObj → List PyObj
  | .df _ _ rows => rows.toList
  | .ndarr _ xs => xs.toList
  | .pylist xs => xs.toList
  | o => [o]

/-- The multiset of flattened content of a whole collection. -/
def rddContent (r : RDD PyObj) : Multiset PyObj :=
  (((collectR r).map elemContent).flatten : List PyObj)

/-- A row that is a non-empty value list (so that `row[0]` is defined). -/
def IsNonemptyRow (row : PyObj) : Prop :=
  ∃ v vs, row = PyObj.pylist (PyList.cons v vs)

/-- The collection is homogeneous in the element kind the dispatch of
`repartition` reads off the first element: every element is a DataFrame
with the cached schema (and non-empty rows, so the keying `row[0]` is
defined), a rank >= 1 array, or a list, respectively; collections whose
first element is of any other kind take the fallback path and need no
homogeneity. -/
def KindHomogeneous (r : RDD PyObj) : Prop :=
  match firstElemR r with
  | some (.df cols dts _) =>
    ∀ o ∈ collectR r, ∃ rows, o = PyObj.df cols dts rows ∧
      ∀ row ∈ rows.toList, IsNonemptyRow row
  | some (.ndarr _ _) => ∀ o ∈ collectR r, ∃ dt xs, o = PyObj.ndarr dt xs
  | some (.pylist _) => ∀ o ∈ collectR r, ∃ xs, o = PyObj.pylist xs
  | _ => True

/-- The flattened content of a collection, as a list. -/
def contentList (r : RDD PyObj) : List PyObj := ((collectR r).map elemContent).flatten

/-- Decidable equality for `Except`, used to settle concrete runs. -/
instance {e a : Type} [DecidableEq e] [DecidableEq a] : DecidableEq (Except e a) := fun x y =>
  match x, y with
  | .error u, .error v =>
    if h : u = v then .isTrue (by rw [h]) else .isFalse (by intro hxy; injection hxy; contradiction)
  | .ok u, .ok v =>
    if h : u = v then .isTrue (by rw [h]) else .isFalse (by intro hxy; injection hxy; contradiction)
  | .error _, .ok _ => .isFalse (by intro hxy; injection hxy)
  | .ok _, .error _ => .isFalse (by intro hxy; injection hxy)

theorem PyList.toList_ofList (xs : List PyObj) : (PyList.ofList xs).toList = xs := by
  induction xs with
  | nil => rfl
  | cons h t ih => simp [PyList.ofList, PyList.toList, ih]

theorem balancedChunks_length {α : Type} (n : Nat) (xs : List α) :
    (balancedChunks n xs).length = n := by
  induction n generalizing xs with
  | zero => rfl
  | succ m ih => simp [balancedChunks, ih]

theorem balancedChunks_flatten {α : Type} (n : Nat) (xs : List α) (hn : 0 < n) :
    (balancedChunks n xs).flatten = xs := by
  induction n generalizing xs with
  | zero => omega
  | succ m ih =>
    have step : balancedChunks (m + 1) xs =
        xs.take ((xs.length + m) / (m + 1)) ::
          balancedChunks m (xs.drop ((xs.length + m) / (m + 1))) := rfl
    rw [step, List.flatten_cons]
    cases Nat.eq_zero_or_pos m with
    | inl h0 =>
      subst h0
      simp [balancedChunks]
    | inr hpos =>
      rw [ih _ hpos]
      exact List.take_append_drop _ xs

theorem balancedChunks_mem_nonempty {α : Type} (n : Nat) (xs : List α)
    (hlen : n ≤ xs.length) :
    ∀ c ∈ balancedChunks n xs, c ≠ [] := by
  induction n generalizing xs with
  | zero => intro c hc; simp [balancedChunks] at hc
  | succ m ih =>
    intro c hc
    have step : balancedChunks (m + 1) xs =
        xs.take ((xs.length + m) / (m + 1)) ::
          balancedChunks m (xs.drop ((xs.length + m) / (m + 1))) := rfl
    rw [step, List.mem_cons] at hc
    have hk1 : 1 ≤ (xs.length + m) / (m + 1) := by
      exact Nat.le_div_iff_mul_le (Nat.succ_pos m) |>.mpr (by omega)
    rcases hc with hc | hc
    · subst hc
      intro habs
      have hlt := congrArg List.length habs
      rw [List.length_take] at hlt
      simp only [List.length_nil] at hlt
      omega
    · refine ih (xs.drop ((xs.length + m) / (m + 1))) ?_ c hc
      by_cases hm : m = 0
      · subst hm; simp
      · have hmono : (xs.length + m) / (m + 1) ≤ xs.length - m := by
          have hd : 1 ≤ xs.length - m := by omega
          have : xs.length + m ≤ (m + 1) * (xs.length - m) + m := by
            have : xs.length ≤ (m + 1) * (xs.length - m) := by
              calc xs.length = (xs.length - m) + m := by omega
                _ ≤ (xs.length - m) + m * (xs.length - m) := by
                    have := Nat.mul_le_mul_left m hd
                    omega
                _ = (m + 1) * (xs.length - m) := by ring
            omega
          calc (xs.length + m) / (m + 1) ≤ ((m + 1) * (xs.length - m) + m) / (m + 1) :=
                Nat.div_le_div_right this
            _ = xs.length - m := by
                rw [Nat.mul_add_div (Nat.succ_pos m)]
                simp [Nat.div_eq_of_lt (by omega : m < m + 1)]
        simp only [List.length_drop]
        omega

theorem flatten_map_flatten {α β : Type} (f : α → List β) (L : List (List α)) :
    (L.map (fun p => (p.map f).flatten)).flatten = ((L.flatten).map f).flatten := by
  induction L with
  | nil => rfl
  | cons p L ih => simp [List.map_append, List.flatten_append, ih]

theorem collect_flatMapR {α β : Type} (f : α → List β) (r : RDD α) :
    collectR (flatMapR f r) = ((collectR r).map f).flatten := by
  unfold collectR flatMapR
  exact flatten_map_flatten f r

theorem collect_mapRDD {α β : Type} (f : α → β) (r : RDD α) :
    collectR (mapRDD f r) = (collectR r).map f := by
  unfold collectR mapRDD
  simp [List.map_flatten]

theorem count_filter_fiber {α : Type} [DecidableEq α] (g : α → Nat) (i : Nat)
    (a : α) (xs : List α) :
    (xs.filter (fun x => g x == i)).count a = if g a = i then xs.count a else 0 := by
  induction xs with
  | nil => simp
  | cons x xs ih =>
    by_cases hx : g x = i
    · rw [List.filter_cons_of_pos (by simpa using hx)]
      by_cases hax : x = a
      · subst hax
        simp [List.count_cons_self, ih, hx]
      · rw [List.count_cons_of_ne (fun h => hax h.symm),
          List.count_cons_of_ne (fun h => hax h.symm), ih]
    · rw [List.filter_cons_of_neg (by simpa using hx)]
      by_cases hax : x = a
      · subst hax
        simp [ih, hx]
      · rw [List.count_cons_of_ne (fun h => hax h.symm), ih]

theorem sum_map_range_single (n k c : Nat) :
    (((List.range n).map (fun i => if k = i then c else 0)).sum) =
      if k < n then c else 0 := by
  induction n with
  | zero => simp
  | succ m ih =>
    rw [List.range_succ]
    simp only [List.map_append, List.sum_append, ih]
    by_cases hk : k < m
    · simp [hk, Nat.lt_succ_of_lt hk, Nat.ne_of_lt hk]
    · by_cases hkm : k = m
      · subst hkm
        simp [Nat.lt_irrefl, Nat.lt_succ_self]
      · have : ¬ k < m + 1 := by omega
        simp [hk, hkm, this]

theorem fiber_flatten_perm {α : Type} [DecidableEq α] (g : α → Nat) (n : Nat)
    (xs : List α) (h : ∀ x ∈ xs, g x < n) :
    (((List.range n).map (fun i => xs.filter (fun x => g x == i))).flatten).Perm xs := by
  rw [List.perm_iff_count]
  intro a
  rw [List.count_flatten, List.map_map]
  have hmap : ((List.range n).map
      (List.count a ∘ fun i => xs.filter (fun x => g x == i))) =
      (List.range n).map (fun i => if g a = i then xs.count a else 0) := by
    refine List.map_congr_left ?_
    intro i _
    simp only [Function.comp_apply]
    exact count_filter_fiber g i a xs
  rw [hmap, sum_map_range_single]
  by_cases hmem : a ∈ xs
  · simp [h a hmem]
  · have : xs.count a = 0 := List.count_eq_zero.mpr hmem
    simp [this]

theorem partitionByR_perm {α : Type} [DecidableEq α] (n : Nat) (hn : 0 < n)
    (kr : RDD (PyObj × α)) :
    (collectR (partitionByR n kr)).Perm (collectR kr) := by
  unfold partitionByR
  have hb : ∀ kv ∈ collectR kr, keyBucket n kv.1 < n := by
    intro kv _
    unfold keyBucket
    have hnn : (0 : Int) < (n : Int) := by exact_mod_cast hn
    have := Int.emod_lt_of_pos (pyHash kv.1) hnn
    omega
  exact fiber_flatten_perm (fun kv => keyBucket n kv.1) n (collectR kr) hb

theorem rddContent_eq_contentList (r : RDD PyObj) : rddContent r = (contentList r : Multiset PyObj) := rfl

theorem contentList_parts (r : RDD PyObj) :
    contentList r = (r.map (fun p => (p.map elemContent).flatten)).flatten := by
  unfold contentList collectR
  exact (flatten_map_flatten elemContent r).symm

theorem coalesceR_collect {α : Type} (n : Nat) (hn : 0 < n) (r : RDD α) :
    collectR (coalesceR n r) = collectR r := by
  unfold coalesceR
  by_cases h : r.length ≤ n
  · simp [h]
  · simp only [h, if_false]
    unfold collectR
    rw [← List.flatten_flatten, balancedChunks_flatten n r hn]

theorem coalesceR_length {α : Type} (n : Nat) (r : RDD α) (h : n ≤ r.length) :
    (coalesceR n r).length = n := by
  unfold coalesceR
  by_cases hle : r.length ≤ n
  · simp [hle]; omega
  · simp [hle, balancedChunks_length]

theorem balancedChunks_mem_subset {α : Type} (n : Nat) (xs : List α) :
    ∀ c ∈ balancedChunks n xs, ∀ y ∈ c, y ∈ xs := by
  induction n generalizing xs with
  | zero => intro c hc; simp [balancedChunks] at hc
  | succ m ih =>
    intro c hc y hy
    have step : balancedChunks (m + 1) xs =
        xs.take ((xs.length + m) / (m + 1)) ::
          balancedChunks m (xs.drop ((xs.length + m) / (m + 1))) := rfl
    rw [step, List.mem_cons] at hc
    rcases hc with hc | hc
    · subst hc; exact List.mem_of_mem_take hy
    · exact List.mem_of_mem_drop (ih _ c hc y hy)

theorem coalesceR_mem_nonempty {α : Type} (n : Nat) (r : RDD α) (h : n ≤ r.length)
    (hp : ∀ p ∈ r, p ≠ []) : ∀ p ∈ coalesceR n r, p ≠ [] := by
  unfold coalesceR
  by_cases hle : r.length ≤ n
  · simpa [hle] using hp
  · simp only [hle, if_false]
    intro p hpmem
    rcases List.mem_map.mp hpmem with ⟨c, hc, rfl⟩
    have hcne : c ≠ [] := balancedChunks_mem_nonempty n r h c hc
    intro habs
    rcases List.exists_mem_of_ne_nil c hcne with ⟨q, hq⟩
    have hqr : q ∈ r := balancedChunks_mem_subset n r c hc q hq
    have : q = [] := by
      have hall := List.flatten_eq_nil_iff.mp habs
      exact hall q hq
    exact hp q hqr this

theorem sparkRepartition_length {α : Type} (n : Nat) (r : RDD α) :
    (sparkRepartition n r).length = n := balancedChunks_length n (collectR r)

theorem sparkRepartition_collect {α : Type} (n : Nat) (hn : 0 < n) (r : RDD α) :
    collectR (sparkRepartition n r) = collectR r :=
  balancedChunks_flatten n (collectR r) hn

theorem mergeRows_content (cols dts : List String) (p : List (PyObj × PyObj)) :
    ((mergeRows cols dts p).map elemContent).flatten = p.map (fun value => value.2) := by
  cases p with
  | nil => rfl
  | cons a q =>
    show ([PyObj.df cols dts (PyList.ofList ((a :: q).map (fun value => value.2)))].map
      elemContent).flatten = _
    simp [elemContent, PyList.toList_ofList]

theorem combineDf_content (p : List PyObj) :
    ((combineDf p).map elemContent).flatten = (p.map dfRowsOf).flatten := by
  cases p with
  | nil => rfl
  | cons x q =>
    show ([PyObj.df (dfColsOf x) (dfDtypesOf x)
        (PyList.ofList (((x :: q).map dfRowsOf).flatten))].map elemContent).flatten = _
    simp [elemContent, PyList.toList_ofList]

theorem dfRepartition_spec (cols dts : List String) (r : RDD PyObj) (n : Nat) (hn : 0 < n)
    (hdf : ∀ o ∈ collectR r, ∃ rows, o = PyObj.df cols dts rows) :
    ∃ out, dfRepartition cols dts r n = Except.ok out ∧ out.length = n ∧
      rddContent out = rddContent r := by
  have hContent_src : contentList r = ((collectR r).map dfRowsOf).flatten := by
    unfold contentList
    congr 1
    refine List.map_congr_left ?_
    intro o ho
    rcases hdf o ho with ⟨rows, rfl⟩
    rfl
  unfold dfRepartition
  by_cases hinc : n > r.length
  · rw [if_pos hinc]
    refine ⟨_, rfl, ?_, ?_⟩
    · simp [partitionByR]
    · rw [rddContent_eq_contentList, rddContent_eq_contentList, hContent_src,
        contentList_parts, List.map_map]
      have h1 : ((partitionByR n (flatMapR dfKeyedRows r)).map
          ((fun p => (p.map elemContent).flatten) ∘ mergeRows cols dts)) =
          (partitionByR n (flatMapR dfKeyedRows r)).map
            (fun p => p.map (fun value => value.2)) :=
        List.map_congr_left (fun p _ => mergeRows_content cols dts p)
      rw [h1, ← List.map_flatten]
      have h3 : ((collectR (partitionByR n (flatMapR dfKeyedRows r))).map
          (fun value : PyObj × PyObj => value.2)).Perm
          ((collectR (flatMapR dfKeyedRows r)).map (fun value => value.2)) :=
        (partitionByR_perm n hn (flatMapR dfKeyedRows r)).map _
      have h4 : (collectR (flatMapR dfKeyedRows r)).map
          (fun value : PyObj × PyObj => value.2) =
          ((collectR r).map dfRowsOf).flatten := by
        rw [collect_flatMapR, List.map_flatten, List.map_map]
        congr 1
        refine List.map_congr_left ?_
        intro o _
        have hcomp : ((fun value : PyObj × PyObj => value.2) ∘
            fun row => (pyGetIdx 0 row, row)) = id := rfl
        show (dfKeyedRows o).map (fun value => value.2) = dfRowsOf o
        unfold dfKeyedRows
        rw [List.map_map, hcomp, List.map_id]
      rw [← h4]
      exact Multiset.coe_eq_coe.mpr h3
  · rw [if_neg hinc]
    have hle : n ≤ r.length := by omega
    refine ⟨_, rfl, ?_, ?_⟩
    · simp [coalesceR_length n r hle]
    · rw [rddContent_eq_contentList, rddContent_eq_contentList, hContent_src,
        contentList_parts, List.map_map]
      have h1 : ((coalesceR n r).map
          ((fun p => (p.map elemContent).flatten) ∘ combineDf)) =
          (coalesceR n r).map (fun p => (p.map dfRowsOf).flatten) :=
        List.map_congr_left (fun p _ => combineDf_content p)
      rw [h1, flatten_map_flatten dfRowsOf (coalesceR n r)]
      rw [show (coalesceR n r).flatten = collectR r from coalesceR_collect n hn r]

theorem listRepartition_spec (r : RDD PyObj) (n : Nat) (hn : 0 < n)
    (hl : ∀ o ∈ collectR r, ∃ xs, o = PyObj.pylist xs)
    (hp : ∀ p ∈ r, p ≠ []) :
    ∃ out, listRepartition r n = Except.ok out ∧ out.length = n ∧
      rddContent out = rddContent r := by
  have hContent_src : contentList r = ((collectR r).map listItemsOf).flatten := by
    unfold contentList
    congr 1
    refine List.map_congr_left ?_
    intro o ho
    rcases hl o ho with ⟨xs, rfl⟩
    rfl
  unfold listRepartition
  by_cases hinc : n > r.length
  · rw [if_pos hinc]
    refine ⟨_, rfl, ?_, ?_⟩
    · simp [sparkRepartition_length]
    · rw [rddContent_eq_contentList, rddContent_eq_contentList, hContent_src,
        contentList_parts, List.map_map]
      have h1 : ((sparkRepartition n (flatMapR listItemsOf r)).map
          ((fun p => (p.map elemContent).flatten) ∘
            fun p => [PyObj.pylist (PyList.ofList p)])) =
          (sparkRepartition n (flatMapR listItemsOf r)).map id := by
        refine List.map_congr_left ?_
        intro p _
        show ([PyObj.pylist (PyList.ofList p)].map elemContent).flatten = p
        simp [elemContent, PyList.toList_ofList]
      rw [h1, List.map_id]
      rw [show (sparkRepartition n (flatMapR listItemsOf r)).flatten =
        collectR (flatMapR listItemsOf r) from sparkRepartition_collect n hn _]
      rw [collect_flatMapR]
  · rw [if_neg hinc]
    have hle : n ≤ r.length := by omega
    have hall : (coalesceR n r).all (fun p => !p.isEmpty) = true := by
      rw [List.all_eq_true]
      intro p hpm
      have := coalesceR_mem_nonempty n r hle hp p hpm
      simpa using this
    rw [if_pos hall]
    refine ⟨_, rfl, ?_, ?_⟩
    · simp [coalesceR_length n r hle]
    · rw [rddContent_eq_contentList, rddContent_eq_contentList, hContent_src,
        contentList_parts, List.map_map]
      have h1 : ((coalesceR n r).map
          ((fun p => (p.map elemContent).flatten) ∘
            fun p => [PyObj.pylist (PyList.ofList ((p.map listItemsOf).flatten))])) =
          (coalesceR n r).map (fun p => (p.map listItemsOf).flatten) := by
        refine List.map_congr_left ?_
        intro p _
        show ([PyObj.pylist (PyList.ofList ((p.map listItemsOf).flatten))].map
          elemContent).flatten = _
        simp [elemContent, PyList.toList_ofList]
      rw [h1, flatten_map_flatten listItemsOf (coalesceR n r)]
      rw [show (coalesceR n r).flatten = collectR r from coalesceR_collect n hn r]

theorem ndRepartition_spec (dt : String) (r : RDD PyObj) (n : Nat) (hn : 0 < n)
    (hnd : ∀ o ∈ collectR r, ∃ d xs, o = PyObj.ndarr d xs)
    (hp : ∀ p ∈ r, p ≠ []) :
    ∃ out, ndRepartition dt r n = Except.ok out ∧ out.length = n ∧
      rddContent out = rddContent r := by
  have hContent_src : contentList r = ((collectR r).map ndItemsOf).flatten := by
    unfold contentList
    congr 1
    refine List.map_congr_left ?_
    intro o ho
    rcases hnd o ho with ⟨d, xs, rfl⟩
    rfl
  unfold ndRepartition
  by_cases hinc : n > r.length
  · rw [if_pos hinc]
    refine ⟨_, rfl, ?_, ?_⟩
    · simp [sparkRepartition_length]
    · rw [rddContent_eq_contentList, rddContent_eq_contentList, hContent_src,
        contentList_parts, List.map_map]
      have h1 : ((sparkRepartition n (flatMapR ndItemsOf r)).map
          ((fun p => (p.map elemContent).flatten) ∘
            fun p => [PyObj.ndarr dt (PyList.ofList p)])) =
          (sparkRepartition n (flatMapR ndItemsOf r)).map id := by
        refine List.map_congr_left ?_
        intro p _
        show ([PyObj.ndarr dt (PyList.ofList p)].map elemContent).flatten = p
        simp [elemContent, PyList.toList_ofList]
      rw [h1, List.map_id]
      rw [show (sparkRepartition n (flatMapR ndItemsOf r)).flatten =
        collectR (flatMapR ndItemsOf r) from sparkRepartition_collect n hn _]
      rw [collect_flatMapR]
  · rw [if_neg hinc]
    have hle : n ≤ r.length := by omega
    have hall : (coalesceR n r).all (fun p => !p.isEmpty) = true := by
      rw [List.all_eq_true]
      intro p hpm
      have := coalesceR_mem_nonempty n r hle hp p hpm
      simpa using this
    rw [if_pos hall]
    refine ⟨_, rfl, ?_, ?_⟩
    · simp [coalesceR_length n r hle]
    · rw [rddContent_eq_contentList, rddContent_eq_contentList, hContent_src,
        contentList_parts, List.map_map]
      have h1 : ((coalesceR n r).map
          ((fun p => (p.map elemContent).flatten) ∘
            fun p => [PyObj.ndarr (ndDtypeOf (p.headD (PyObj.int 0)))
              (PyList.ofList ((p.map ndItemsOf).flatten))])) =
          (coalesceR n r).map (fun p => (p.map ndItemsOf).flatten) := by
        refine List.map_congr_left ?_
        intro p _
        show ([PyObj.ndarr (ndDtypeOf (p.headD (PyObj.int 0)))
          (PyList.ofList ((p.map ndItemsOf).flatten))].map elemContent).flatten = _
        simp [elemContent, PyList.toList_ofList]
      rw [h1, flatten_map_flatten ndItemsOf (coalesceR n r)]
      rw [show (coalesceR n r).flatten = collectR r from coalesceR_collect n hn r]

theorem sparkRepartition_content (n : Nat) (hn : 0 < n) (r : RDD PyObj) :
    rddContent (sparkRepartition n r) = rddContent r := by
  rw [rddContent_eq_contentList, rddContent_eq_contentList]
  unfold contentList
  rw [sparkRepartition_collect n hn r]

theorem repartitionX_first (r : RDD PyObj) (n : Nat) (e : PyObj)
    (hfe : firstElemR r = some e) :
    repartitionX r n =
      (if get_class_name e = "pandas.core.frame.DataFrame" then
        dfRepartition (dfColsOf e) (dfDtypesOf e) r n
      else if get_class_name e = "list" then
        listRepartition r n
      else if get_class_name e = "numpy.ndarray" then
        match e with
        | .ndarr dt _ => ndRepartition dt r n
        | _ => .ok (sparkRepartition n r)
      else
        .ok (sparkRepartition n r)) := by
  unfold repartitionX
  simp only [hfe]
  cases e <;> rfl

/-- C1 (amended): for every kind-homogeneous collection with non-empty
partitions and every valid target `n`, `repartition(n)` succeeds, the
result has exactly `n` partitions, and the flattened content (table rows,
leading-axis array slices, list items, or the elements themselves for the
default fallback) is preserved as a multiset.  The element multiset itself
is not preserved on the reshaping paths (see the counterexample). -/
theorem spec_c1_repartition (r : RDD PyObj) (n : Nat) (hn : 0 < n)
    (hne : collectR r ≠ []) (hp : ∀ p ∈ r, p ≠ []) (hk : KindHomogeneous r) :
    ∃ out, repartitionX r n = Except.ok out ∧ numPartitionsR out = n ∧
      rddContent out = rddContent r := by
  obtain ⟨e, es, hcol⟩ : ∃ e es, collectR r = e :: es := by
    cases hcolr : collectR r with
    | nil => exact absurd hcolr hne
    | cons a l => exact ⟨a, l, rfl⟩
  have hfe : firstElemR r = some e := by unfold firstElemR; rw [hcol]; rfl
  rw [repartitionX_first r n e hfe]
  unfold KindHomogeneous at hk
  rw [hfe] at hk
  cases e with
  | df cols dts rows =>
    simp only [get_class_name, dfColsOf, dfDtypesOf, reduceIte]
    have hdf : ∀ o ∈ collectR r, ∃ rws, o = PyObj.df cols dts rws := by
      intro o ho
      obtain ⟨rws, h1, _⟩ := hk o ho
      exact ⟨rws, h1⟩
    exact dfRepartition_spec cols dts r n hn hdf
  | pylist xs =>
    simp only [get_class_name, reduceIte]
    exact listRepartition_spec r n hn hk hp
  | ndarr dt xs =>
    simp only [get_class_name, reduceIte]
    exact ndRepartition_spec dt r n hn hk hp
  | ndscalar dt v =>
    simp only [get_class_name, reduceIte]
    exact ⟨_, rfl, sparkRepartition_length n r, sparkRepartition_content n hn r⟩
  | int m =>
    simp only [get_class_name, reduceIte]
    exact ⟨_, rfl, sparkRepartition_length n r, sparkRepartition_content n hn r⟩
  | str s =>
    simp only [get_class_name, reduceIte]
    exact ⟨_, rfl, sparkRepartition_length n r, sparkRepartition_content n hn r⟩
  | tup xs =>
    simp only [get_class_name, reduceIte]
    exact ⟨_, rfl, sparkRepartition_length n r, sparkRepartition_content n hn r⟩
  | pydict ks vs =>
    simp only [get_class_name, reduceIte]
    exact ⟨_, rfl, sparkRepartition_length n r, sparkRepartition_content n hn r⟩

/-- Witness for C1 (amended) at a concrete list-kind collection. -/
theorem spec_c1_repartition_witness :
    ∃ out,
      repartitionX [[PyObj.pylist (.cons (.int 1) (.cons (.int 2) .nil))]] 2 =
        Except.ok out ∧
      numPartitionsR out = 2 ∧
      rddContent out =
        rddContent [[PyObj.pylist (.cons (.int 1) (.cons (.int 2) .nil))]] :=
  spec_c1_repartition [[PyObj.pylist (.cons (.int 1) (.cons (.int 2) .nil))]] 2
    (by decide) (by decide) (by decide)
    (by
      intro o ho
      simp only [collectR, List.flatten, List.mem_cons, List.not_mem_nil,
        or_false, List.mem_singleton, List.append_nil] at ho
      exact ⟨_, ho⟩)

/-- Counterexample to C1 as stated: for a list-kind collection,
`repartition(2)` regroups the items, so the multiset of collected
*elements* changes even though `num_partitions` and the flattened content
are as promised. -/
theorem spec_c1_counterexample :
    repartitionX [[PyObj.pylist (.cons (.int 1) (.cons (.int 2) .nil))]] 2 =
      Except.ok [[PyObj.pylist (.cons (.int 1) .nil)],
        [PyObj.pylist (.cons (.int 2) .nil)]] ∧
    numPartitionsR [[PyObj.pylist (.cons (.int 1) .nil)],
        [PyObj.pylist (.cons (.int 2) .nil)]] = 2 ∧
    ¬ ((collectR [[PyObj.pylist (.cons (.int 1) .nil)],
          [PyObj.pylist (.cons (.int 2) .nil)]] : Multiset PyObj) =
        (collectR [[PyObj.pylist (.cons (.int 1) (.cons (.int 2) .nil))]] :
          Multiset PyObj)) := by
  refine ⟨by decide, by decide, ?_⟩
  decide

theorem keyBucket_lt (n : Nat) (hn : 0 < n) (k : PyObj) : keyBucket n k < n := by
  unfold keyBucket
  have hnn : (n : Int) ≠ 0 := by
    have : (0 : Int) < (n : Int) := by exact_mod_cast hn
    omega
  have h0 : 0 ≤ pyHash k % (n : Int) := Int.emod_nonneg _ hnn
  have h1 : pyHash k % (n : Int) < (n : Int) := by
    refine Int.emod_lt_of_pos _ ?_
    exact_mod_cast hn
  omega

/-- C5 (amended): when `repartition(n)` increases the partition count of a
record-table-kind collection, the result has `n` partitions, each of which
is either a single table rebuilt with the cached schema from the non-empty
bucket, or — for a bucket that received no rows — an *empty partition*
holding no table at all (not an empty table). -/
theorem spec_c5_df_increase (r : RDD PyObj) (n : Nat) (cols dts : List String)
    (rows0 : PyList) (hfe : firstElemR r = some (PyObj.df cols dts rows0))
    (hinc : n > r.length) :
    ∃ out, repartitionX r n = Except.ok out ∧ out.length = n ∧
      ∀ p ∈ out, p = [] ∨
        ∃ data : List PyObj, data ≠ [] ∧ p = [PyObj.df cols dts (PyList.ofList data)] := by
  rw [repartitionX_first r n _ hfe]
  simp only [get_class_name, dfColsOf, dfDtypesOf, reduceIte]
  unfold dfRepartition
  rw [if_pos hinc]
  refine ⟨_, rfl, by simp [partitionByR], ?_⟩
  intro p hpmem
  rcases List.mem_map.mp hpmem with ⟨q, hq, rfl⟩
  unfold mergeRows
  by_cases hql : (q.map (fun value => value.2)).isEmpty
  · left
    simp [hql]
  · right
    refine ⟨q.map (fun value => value.2), ?_, ?_⟩
    · intro habs
      rw [habs] at hql
      exact hql rfl
    · simp only [Bool.not_eq_true] at hql
      simp [hql]

/-- Witness for C5 (amended) at a concrete one-row table. -/
theorem spec_c5_df_increase_witness :
    ∃ out,
      repartitionX [[PyObj.df ["a", "b"] ["int64", "int64"]
          (.cons (.pylist (.cons (.int 0) (.cons (.int 5) .nil))) .nil)]] 2 =
        Except.ok out ∧
      out.length = 2 ∧
      ∀ p ∈ out, p = [] ∨
        ∃ data : List PyObj, data ≠ [] ∧
          p = [PyObj.df ["a", "b"] ["int64", "int64"] (PyList.ofList data)] :=
  spec_c5_df_increase
    [[PyObj.df ["a", "b"] ["int64", "int64"]
      (.cons (.pylist (.cons (.int 0) (.cons (.int 5) .nil))) .nil)]] 2
    ["a", "b"] ["int64", "int64"]
    (.cons (.pylist (.cons (.int 0) (.cons (.int 5) .nil))) .nil)
    (by decide) (by decide)

/-- Counterexample to C5 as stated: the empty bucket of the concrete run
yields an empty partition (no table), so not every output partition holds
a table. -/
theorem spec_c5_counterexample :
    repartitionX [[PyObj.df ["a", "b"] ["int64", "int64"]
        (.cons (.pylist (.cons (.int 0) (.cons (.int 5) .nil))) .nil)]] 2 =
      Except.ok [[PyObj.df ["a", "b"] ["int64", "int64"]
          (.cons (.pylist (.cons (.int 0) (.cons (.int 5) .nil))) .nil)], []] ∧
    ¬ (∀ p ∈ [[PyObj.df ["a", "b"] ["int64", "int64"]
          (.cons (.pylist (.cons (.int 0) (.cons (.int 5) .nil))) .nil)],
          ([] : List PyObj)],
        ∃ c d rws, p = [PyObj.df c d rws]) := by
  constructor
  · decide
  · intro hall
    obtain ⟨c, d, rws, habs⟩ := hall [] (by simp)
    exact List.noConfusion habs

/-- C9: on the record-table increase path, rows are keyed for
redistribution by their first column value, so two rows whose first-column
values are equal end up in the same output partition (the table of bucket
`keyBucket n key`). -/
theorem spec_c9_first_column_key (r : RDD PyObj) (n : Nat) (cols dts : List String)
    (rows0 : PyList) (hfe : firstElemR r = some (PyObj.df cols dts rows0))
    (hinc : n > r.length) (hn : 0 < n)
    (o1 o2 row1 row2 : PyObj)
    (h1 : o1 ∈ collectR r) (h2 : o2 ∈ collectR r)
    (hr1 : row1 ∈ dfRowsOf o1) (hr2 : row2 ∈ dfRowsOf o2)
    (hkey : pyGetIdx 0 row1 = pyGetIdx 0 row2) :
    ∃ out, repartitionX r n = Except.ok out ∧
      ∃ i, ∃ hi : i < out.length, ∃ data : List PyObj,
        out.get ⟨i, hi⟩ = [PyObj.df cols dts (PyList.ofList data)] ∧
        row1 ∈ data ∧ row2 ∈ data := by
  rw [repartitionX_first r n _ hfe]
  simp only [get_class_name, dfColsOf, dfDtypesOf, reduceIte]
  unfold dfRepartition
  rw [if_pos hinc]
  refine ⟨_, rfl, ?_⟩
  have hmem : ∀ (o row : PyObj), o ∈ collectR r → row ∈ dfRowsOf o →
      (pyGetIdx 0 row, row) ∈ collectR (flatMapR dfKeyedRows r) := by
    intro o row ho hrow
    rw [collect_flatMapR, List.mem_flatten]
    exact ⟨dfKeyedRows o, List.mem_map.mpr ⟨o, ho, rfl⟩,
      List.mem_map.mpr ⟨row, hrow, rfl⟩⟩
  have hm1 := hmem o1 row1 h1 hr1
  have hm2 := hmem o2 row2 h2 hr2
  have hbn : keyBucket n (pyGetIdx 0 row1) < n := keyBucket_lt n hn _
  have hlen : ((partitionByR n (flatMapR dfKeyedRows r)).map (mergeRows cols dts)).length
      = n := by simp [partitionByR]
  refine ⟨keyBucket n (pyGetIdx 0 row1), by omega, ?_⟩
  have hget : ((partitionByR n (flatMapR dfKeyedRows r)).map (mergeRows cols dts)).get
      ⟨keyBucket n (pyGetIdx 0 row1), by omega⟩ =
      mergeRows cols dts ((collectR (flatMapR dfKeyedRows r)).filter
        (fun kv => keyBucket n kv.1 == keyBucket n (pyGetIdx 0 row1))) := by
    simp [partitionByR, List.get_eq_getElem, List.getElem_map, List.getElem_range, hbn]
  have hf1 : (pyGetIdx 0 row1, row1) ∈
      (collectR (flatMapR dfKeyedRows r)).filter
        (fun kv => keyBucket n kv.1 == keyBucket n (pyGetIdx 0 row1)) := by
    rw [List.mem_filter]
    exact ⟨hm1, by simp⟩
  have hf2 : (pyGetIdx 0 row2, row2) ∈
      (collectR (flatMapR dfKeyedRows r)).filter
        (fun kv => keyBucket n kv.1 == keyBucket n (pyGetIdx 0 row1)) := by
    rw [List.mem_filter]
    refine ⟨hm2, by simp [hkey]⟩
  refine ⟨((collectR (flatMapR dfKeyedRows r)).filter
      (fun kv => keyBucket n kv.1 == keyBucket n (pyGetIdx 0 row1))).map
      (fun value => value.2), ?_, ?_, ?_⟩
  · rw [hget]
    unfold mergeRows
    have hnil : ((collectR (flatMapR dfKeyedRows r)).filter
        (fun kv => keyBucket n kv.1 == keyBucket n (pyGetIdx 0 row1))) ≠ [] :=
      List.ne_nil_of_mem hf1
    have hne : (((collectR (flatMapR dfKeyedRows r)).filter
        (fun kv => keyBucket n kv.1 == keyBucket n (pyGetIdx 0 row1))).map
        (fun value => value.2)).isEmpty = false := by
      cases hcase : ((collectR (flatMapR dfKeyedRows r)).filter
          (fun kv => keyBucket n kv.1 == keyBucket n (pyGetIdx 0 row1))) with
      | nil => exact absurd hcase hnil
      | cons a q => rfl
    simp [hne]
  · exact List.mem_map.mpr ⟨_, hf1, rfl⟩
  · exact List.mem_map.mpr ⟨_, hf2, rfl⟩

/-- Witness for C9 at a concrete two-row table with equal first column. -/
theorem spec_c9_first_column_key_witness :
    ∃ out, repartitionX [[PyObj.df ["a", "b"] ["int64", "int64"]
        (.cons (.pylist (.cons (.int 0) (.cons (.int 1) .nil)))
          (.cons (.pylist (.cons (.int 0) (.cons (.int 2) .nil))) .nil))]] 2 =
      Except.ok out ∧
      ∃ i, ∃ hi : i < out.length, ∃ data : List PyObj,
        out.get ⟨i, hi⟩ = [PyObj.df ["a", "b"] ["int64", "int64"] (PyList.ofList data)] ∧
        PyObj.pylist (.cons (.int 0) (.cons (.int 1) .nil)) ∈ data ∧
        PyObj.pylist (.cons (.int 0) (.cons (.int 2) .nil)) ∈ data :=
  spec_c9_first_column_key
    [[PyObj.df ["a", "b"] ["int64", "int64"]
        (.cons (.pylist (.cons (.int 0) (.cons (.int 1) .nil)))
          (.cons (.pylist (.cons (.int 0) (.cons (.int 2) .nil))) .nil))]] 2
    ["a", "b"] ["int64", "int64"]
    (.cons (.pylist (.cons (.int 0) (.cons (.int 1) .nil)))
      (.cons (.pylist (.cons (.int 0) (.cons (.int 2) .nil))) .nil))
    (by decide) (by decide) (by decide)
    (PyObj.df ["a", "b"] ["int64", "int64"]
      (.cons (.pylist (.cons (.int 0) (.cons (.int 1) .nil)))
        (.cons (.pylist (.cons (.int 0) (.cons (.int 2) .nil))) .nil)))
    (PyObj.df ["a", "b"] ["int64", "int64"]
      (.cons (.pylist (.cons (.int 0) (.cons (.int 1) .nil)))
        (.cons (.pylist (.cons (.int 0) (.cons (.int 2) .nil))) .nil)))
    (PyObj.pylist (.cons (.int 0) (.cons (.int 1) .nil)))
    (PyObj.pylist (.cons (.int 0) (.cons (.int 2) .nil)))
    (by decide) (by decide) (by decide) (by decide) (by decide)

/-- C3 (amended): `zip(other)` fails when the partition counts differ, but
with an `AssertionError`; when the counts match and same-index partitions
do not align element-for-element, the failure of the underlying pairing is
caught and translated to a `ValueError` rather than propagated raw.  The
two failures are therefore distinct exception types, not one shared error. -/
theorem spec_c3_zip_errors (s o : ShardsState) :
    (s.rdd.length ≠ o.rdd.length →
      (s.zipShards (.spark o)).2.2 = Except.error (.assertionError
        "The two SparkXShards should have the same number of partitions")) ∧
    (s.rdd.length = o.rdd.length →
      (∃ pq ∈ s.rdd.zip o.rdd, pq.1.length ≠ pq.2.length) →
      (s.zipShards (.spark o)).2.2 = Except.error (.valueError
        "The two SparkXShards should have the same number of elements in each partition")) := by
  constructor
  · intro hne
    unfold ShardsState.zipShards
    dsimp only
    rw [if_pos hne]
  · intro heq hmis
    unfold ShardsState.zipShards
    dsimp only
    rw [if_neg (fun hne => hne heq)]
    have hallf : ((s.rdd.zip o.rdd).all (fun pq => pq.1.length == pq.2.length)) = false := by
      rw [List.all_eq_false]
      obtain ⟨pq, hpq, hlen⟩ := hmis
      exact ⟨pq, hpq, by simpa using hlen⟩
    have hz : zipRdd s.rdd o.rdd = Except.error
        "Can only zip RDDs with the same number of elements in each partition" := by
      unfold zipRdd
      rw [if_neg (by simp [hallf])]
    rw [hz]

/-- Witness for C3 (amended) at concrete collections: one partition-count
mismatch, one element-count misalignment. -/
theorem spec_c3_zip_errors_witness :
    (((mkShards [[PyObj.int 1]] false).zipShards
        (.spark (mkShards [[PyObj.int 1], [PyObj.int 2]] false))).2.2 =
      Except.error (.assertionError
        "The two SparkXShards should have the same number of partitions")) ∧
    (((mkShards [[PyObj.int 1]] false).zipShards
        (.spark (mkShards [[PyObj.int 1, PyObj.int 2]] false))).2.2 =
      Except.error (.valueError
        "The two SparkXShards should have the same number of elements in each partition")) :=
  ⟨(spec_c3_zip_errors (mkShards [[PyObj.int 1]] false)
      (mkShards [[PyObj.int 1], [PyObj.int 2]] false)).1 (by decide),
   (spec_c3_zip_errors (mkShards [[PyObj.int 1]] false)
      (mkShards [[PyObj.int 1, PyObj.int 2]] false)).2 (by decide)
      ⟨([PyObj.int 1], [PyObj.int 1, PyObj.int 2]), by decide, by decide⟩⟩

/-- Counterexample to C3 as stated: at concrete inputs the two failure
modes raise different exception types (`AssertionError` for the partition
count, `ValueError` for the misalignment), so the misalignment failure is
not translated to "this same error" raised for a partition-count mismatch. -/
theorem spec_c3_counterexample :
    ((mkShards [[PyObj.int 1]] false).zipShards
        (.spark (mkShards [[PyObj.int 1], [PyObj.int 2]] false))).2.2 =
      Except.error (.assertionError
        "The two SparkXShards should have the same number of partitions") ∧
    ((mkShards [[PyObj.int 1]] false).zipShards
        (.spark (mkShards [[PyObj.int 1, PyObj.int 2]] false))).2.2 =
      Except.error (.valueError
        "The two SparkXShards should have the same number of elements in each partition") ∧
    PyErr.assertionError "The two SparkXShards should have the same number of partitions" ≠
      PyErr.valueError
        "The two SparkXShards should have the same number of elements in each partition" := by
  refine ⟨by decide, by decide, by decide⟩

/-- C10: when `zip` fails because the operand is of the other substrate or
the partition counts differ, the failure happens before any cache action:
both operands' cache states are returned untouched, together with the
error; demotion only happens on the success path, after the zipped
collection is built. -/
theorem spec_c10_zip_no_demotion (s : ShardsState) (other : AnyXShards)
    (h : ∀ o, other = .spark o → s.rdd.length ≠ o.rdd.length) :
    (s.zipShards other).1 = s ∧ (s.zipShards other).2.1 = other ∧
      ∃ e, (s.zipShards other).2.2 = Except.error e := by
  cases other with
  | ray ps => exact ⟨rfl, rfl, _, rfl⟩
  | spark o =>
    have hne := h o rfl
    unfold ShardsState.zipShards
    dsimp only
    rw [if_pos hne]
    exact ⟨rfl, rfl, _, rfl⟩

/-- Witness for C10 at a concrete partition-count mismatch. -/
theorem spec_c10_zip_no_demotion_witness :
    ((mkShards [[PyObj.int 1]] false).zipShards
        (.spark (mkShards [[PyObj.int 1], [PyObj.int 2]] false))).1 =
      mkShards [[PyObj.int 1]] false ∧
    ((mkShards [[PyObj.int 1]] false).zipShards
        (.spark (mkShards [[PyObj.int 1], [PyObj.int 2]] false))).2.1 =
      .spark (mkShards [[PyObj.int 1], [PyObj.int 2]] false) ∧
    ∃ e, ((mkShards [[PyObj.int 1]] false).zipShards
        (.spark (mkShards [[PyObj.int 1], [PyObj.int 2]] false))).2.2 =
      Except.error e :=
  spec_c10_zip_no_demotion (mkShards [[PyObj.int 1]] false)
    (.spark (mkShards [[PyObj.int 1], [PyObj.int 2]] false))
    (by
      intro o ho
      injection ho with ho'
      rw [← ho']
      decide)

/-- C7: `transform_shard` never mutates the receiver's data: the updated
source state keeps the same RDD; when the source is user-pinned, its state
is completely unchanged (demotion skipped); the returned collection holds
exactly the per-element image of the source and starts system-cached
(cached, not user-pinned). -/
theorem spec_c7_transform_pure (s : ShardsState) (f : PyObj → PyObj) :
    (s.transform_shard f).1.rdd = s.rdd ∧
    (s.user_cached = true → (s.transform_shard f).1 = s) ∧
    (s.transform_shard f).2.cached = true ∧
    (s.transform_shard f).2.user_cached = false ∧
    (s.transform_shard f).2.rdd = mapRDD f s.rdd := by
  obtain ⟨rd, u, c, j⟩ := s
  cases u <;> cases c <;> cases j <;>
    simp [ShardsState.transform_shard, mkShards, ShardsState.uncacheInternal,
      ShardsState.uncacheS, rddUnpersist]

/-- Witness for C7 at a concrete user-pinned collection. -/
theorem spec_c7_transform_pure_witness :
    ((⟨[[PyObj.int 3]], true, true, false⟩ : ShardsState).transform_shard
        (fun o => o)).1.rdd = [[PyObj.int 3]] ∧
    ((true : Bool) = true → ((⟨[[PyObj.int 3]], true, true, false⟩ : ShardsState).transform_shard
        (fun o => o)).1 = ⟨[[PyObj.int 3]], true, true, false⟩) ∧
    ((⟨[[PyObj.int 3]], true, true, false⟩ : ShardsState).transform_shard
        (fun o => o)).2.cached = true ∧
    ((⟨[[PyObj.int 3]], true, true, false⟩ : ShardsState).transform_shard
        (fun o => o)).2.user_cached = false ∧
    ((⟨[[PyObj.int 3]], true, true, false⟩ : ShardsState).transform_shard
        (fun o => o)).2.rdd = mapRDD (fun o => o) [[PyObj.int 3]] :=
  spec_c7_transform_pure ⟨[[PyObj.int 3]], true, true, false⟩ (fun o => o)

/-- C8: on a collection whose JVM-side cache is already released, the
underlying `unpersist` does raise, but `uncache()` swallows the failure and
returns normally, with only the user pin cleared — cache release is never
fatal to the caller. -/
theorem spec_c8_uncache_swallows (s : ShardsState) (h : s.jvm_released = true) :
    (∃ e, rddUnpersist { s with user_cached := false } = Except.error e) ∧
    s.uncacheS = { s with user_cached := false } := by
  constructor
  · exact ⟨(), by simp [rddUnpersist, h]⟩
  · unfold ShardsState.uncacheS rddUnpersist
    by_cases hc : s.cached <;> simp [hc, h]

/-- Witness for C8 at a concrete already-released collection. -/
theorem spec_c8_uncache_swallows_witness :
    (∃ e, rddUnpersist { (⟨[[PyObj.int 3]], true, true, true⟩ : ShardsState) with
        user_cached := false } = Except.error e) ∧
    (⟨[[PyObj.int 3]], true, true, true⟩ : ShardsState).uncacheS =
      { (⟨[[PyObj.int 3]], true, true, true⟩ : ShardsState) with user_cached := false } :=
  spec_c8_uncache_swallows ⟨[[PyObj.int 3]], true, true, true⟩ (by decide)

/-- C4: `split()` on a non-empty collection: if any two elements have
different split lengths, it raises the split-length exception; if all
elements share a split length greater than 1, it returns one collection
per position `i`, whose elements are `element[i]` of the corresponding
original elements; if the common split length is at most 1 (length-1
sequences or scalars), it returns `[self]` unchanged. -/
theorem spec_c4_split (r : RDD PyObj) (hne : collectR r ≠ []) :
    ((∃ a ∈ collectR r, ∃ b ∈ collectR r, pySplitLen a ≠ pySplitLen b) →
      splitX r = Except.error (.exception
        "Cannot split this XShards because its partitions have different split length")) ∧
    (∀ l0, (∀ a ∈ collectR r, pySplitLen a = l0) → 1 < l0 →
      ∃ shards, splitX r = Except.ok shards ∧ shards.length = l0 ∧
        ∀ i, ∀ hi : i < shards.length,
          collectR (shards.get ⟨i, hi⟩) = (collectR r).map (pyGetIdx i)) ∧
    (∀ l0, (∀ a ∈ collectR r, pySplitLen a = l0) → l0 ≤ 1 →
      splitX r = Except.ok [r]) := by
  obtain ⟨e, es, hcol⟩ : ∃ e es, collectR r = e :: es := by
    cases hcolr : collectR r with
    | nil => exact absurd hcolr hne
    | cons a l => exact ⟨a, l, rfl⟩
  have hme : e ∈ collectR r := by rw [hcol]; exact List.mem_cons_self e es
  refine ⟨?_, ?_, ?_⟩
  · rintro ⟨a, ha, b, hb, hab⟩
    unfold splitX
    rw [hcol, List.map_cons]
    dsimp only
    have hcnt : ((pySplitLen e :: es.map pySplitLen).count (pySplitLen e) ≠
        (pySplitLen e :: es.map pySplitLen).length) := by
      intro hct
      have hall := List.count_eq_length.mp hct
      have hla : pySplitLen e = pySplitLen a := by
        refine hall _ ?_
        rw [← List.map_cons, ← hcol]
        exact List.mem_map.mpr ⟨a, ha, rfl⟩
      have hlb : pySplitLen e = pySplitLen b := by
        refine hall _ ?_
        rw [← List.map_cons, ← hcol]
        exact List.mem_map.mpr ⟨b, hb, rfl⟩
      exact hab (hla ▸ hlb)
    rw [if_pos hcnt]
  · intro l0 hall hl0
    have he0 : pySplitLen e = l0 := hall e hme
    unfold splitX
    rw [hcol, List.map_cons]
    dsimp only
    have hcnt : ((pySplitLen e :: es.map pySplitLen).count (pySplitLen e) =
        (pySplitLen e :: es.map pySplitLen).length) := by
      refine List.count_eq_length.mpr ?_
      intro b hbm
      rw [← List.map_cons, ← hcol] at hbm
      rcases List.mem_map.mp hbm with ⟨a, ha, rfl⟩
      rw [he0, hall a ha]
    rw [if_neg (fun h => h hcnt), if_pos (by omega)]
    refine ⟨_, rfl, by simp [he0], ?_⟩
    intro i hi
    have hglen : i < (List.range (pySplitLen e)).length := by
      simpa using hi
    rw [List.get_eq_getElem, List.getElem_map, List.getElem_range, ← hcol]
    exact collect_mapRDD _ r
  · intro l0 hall hl0
    have he0 : pySplitLen e = l0 := hall e hme
    unfold splitX
    rw [hcol, List.map_cons]
    dsimp only
    have hcnt : ((pySplitLen e :: es.map pySplitLen).count (pySplitLen e) =
        (pySplitLen e :: es.map pySplitLen).length) := by
      refine List.count_eq_length.mpr ?_
      intro b hbm
      rw [← List.map_cons, ← hcol] at hbm
      rcases List.mem_map.mp hbm with ⟨a, ha, rfl⟩
      rw [he0, hall a ha]
    rw [if_neg (fun h => h hcnt), if_neg (by omega)]

/-- Witness for C4 at a concrete collection of two pairs. -/
theorem spec_c4_split_witness :
    ((∃ a ∈ collectR [[PyObj.tup (.cons (.int 1) (.cons (.int 2) .nil)),
          PyObj.tup (.cons (.int 3) (.cons (.int 4) .nil))]],
        ∃ b ∈ collectR [[PyObj.tup (.cons (.int 1) (.cons (.int 2) .nil)),
          PyObj.tup (.cons (.int 3) (.cons (.int 4) .nil))]],
          pySplitLen a ≠ pySplitLen b) →
      splitX [[PyObj.tup (.cons (.int 1) (.cons (.int 2) .nil)),
          PyObj.tup (.cons (.int 3) (.cons (.int 4) .nil))]] = Except.error (.exception
        "Cannot split this XShards because its partitions have different split length")) ∧
    (∀ l0, (∀ a ∈ collectR [[PyObj.tup (.cons (.int 1) (.cons (.int 2) .nil)),
          PyObj.tup (.cons (.int 3) (.cons (.int 4) .nil))]], pySplitLen a = l0) → 1 < l0 →
      ∃ shards, splitX [[PyObj.tup (.cons (.int 1) (.cons (.int 2) .nil)),
          PyObj.tup (.cons (.int 3) (.cons (.int 4) .nil))]] = Except.ok shards ∧
        shards.length = l0 ∧
        ∀ i, ∀ hi : i < shards.length,
          collectR (shards.get ⟨i, hi⟩) =
            (collectR [[PyObj.tup (.cons (.int 1) (.cons (.int 2) .nil)),
              PyObj.tup (.cons (.int 3) (.cons (.int 4) .nil))]]).map (pyGetIdx i)) ∧
    (∀ l0, (∀ a ∈ collectR [[PyObj.tup (.cons (.int 1) (.cons (.int 2) .nil)),
          PyObj.tup (.cons (.int 3) (.cons (.int 4) .nil))]], pySplitLen a = l0) → l0 ≤ 1 →
      splitX [[PyObj.tup (.cons (.int 1) (.cons (.int 2) .nil)),
          PyObj.tup (.cons (.int 3) (.cons (.int 4) .nil))]] = Except.ok
        [[[PyObj.tup (.cons (.int 1) (.cons (.int 2) .nil)),
          PyObj.tup (.cons (.int 3) (.cons (.int 4) .nil))]]]) :=
  spec_c4_split [[PyObj.tup (.cons (.int 1) (.cons (.int 2) .nil)),
    PyObj.tup (.cons (.int 3) (.cons (.int 4) .nil))]] (by decide)


theorem containsId_putObj (st : PlasmaStore) (oid : Nat) (c : List PyObj) :
    ((st.putObj oid c).2).containsId oid = true := by
  simp [PlasmaStore.putObj, PlasmaStore.containsId, List.any_append]

theorem containsId_putObj_mono (st : PlasmaStore) (oid oid2 : Nat) (c : List PyObj)
    (h : st.containsId oid2 = true) : ((st.putObj oid c).2).containsId oid2 = true := by
  simp only [PlasmaStore.putObj, PlasmaStore.containsId, List.any_append] at *
  simp [h]

theorem putToPlasmaPart_skip (ids : List Nat) (nodeIp : Nat → String) (idx : Nat)
    (st : PlasmaStore) (p : List PyObj) (t : Nat)
    (hids : ids[idx]? = some t) (hct : st.containsId t = true) :
    putToPlasmaPart ids nodeIp idx st p = Except.ok (st, (t, nodeIp idx)) := by
  unfold putToPlasmaPart
  rw [hids]
  dsimp only
  rw [if_pos hct]

theorem putToPlasmaPart_write (ids : List Nat) (nodeIp : Nat → String) (idx : Nat)
    (st : PlasmaStore) (p : List PyObj) (t : Nat)
    (hids : ids[idx]? = some t) (hct : st.containsId t = false) :
    putToPlasmaPart ids nodeIp idx st p =
      Except.ok ((st.putObj t p).2, (t, nodeIp idx)) := by
  unfold putToPlasmaPart
  rw [hids]
  dsimp only
  rw [if_neg (by simp [hct]), if_pos (show (st.putObj t p).1 = t from rfl)]

theorem putToPlasmaAll_cons (ids : List Nat) (nodeIp : Nat → String) (idx : Nat)
    (st : PlasmaStore) (p : List PyObj) (ps : RDD PyObj) :
    putToPlasmaAll ids nodeIp idx st (p :: ps) =
      (match putToPlasmaPart ids nodeIp idx st p with
      | .error e => .error e
      | .ok (st1, pair) =>
        match putToPlasmaAll ids nodeIp (idx + 1) st1 ps with
        | .error e => .error e
        | .ok (st2, pairs) => .ok (st2, pair :: pairs)) := rfl

theorem putToPlasmaPart_step (ids : List Nat) (nodeIp : Nat → String) (idx : Nat)
    (st st1 : PlasmaStore) (p : List PyObj) (pair : Nat × String)
    (h : putToPlasmaPart ids nodeIp idx st p = Except.ok (st1, pair)) :
    ∃ t, ids[idx]? = some t ∧ pair = (t, nodeIp idx) ∧ st1.containsId t = true ∧
      (∀ oid, st.containsId oid = true → st1.containsId oid = true) := by
  cases hids : ids[idx]? with
  | none =>
    unfold putToPlasmaPart at h
    rw [hids] at h
    exact Except.noConfusion h
  | some t =>
    cases hct : st.containsId t with
    | true =>
      rw [putToPlasmaPart_skip ids nodeIp idx st p t hids hct] at h
      injection h with h1
      injection h1 with h2 h3
      rw [← h2]
      exact ⟨t, rfl, h3.symm, hct, fun _ hc => hc⟩
    | false =>
      rw [putToPlasmaPart_write ids nodeIp idx st p t hids hct] at h
      injection h with h1
      injection h1 with h2 h3
      rw [← h2]
      exact ⟨t, rfl, h3.symm, containsId_putObj st t p,
        fun oid hc => containsId_putObj_mono st t oid p hc⟩

theorem putToPlasmaAll_mono (ids : List Nat) (nodeIp : Nat → String) (ps : RDD PyObj) :
    ∀ (idx : Nat) (st st' : PlasmaStore) (pairs : List (Nat × String)),
      putToPlasmaAll ids nodeIp idx st ps = Except.ok (st', pairs) →
      ∀ oid, st.containsId oid = true → st'.containsId oid = true := by
  induction ps with
  | nil =>
    intro idx st st' pairs h oid hc
    unfold putToPlasmaAll at h
    injection h with h1
    injection h1 with h2 h3
    rw [← h2]
    exact hc
  | cons p ps ih =>
    intro idx st st' pairs h oid hc
    rw [putToPlasmaAll_cons] at h
    cases hpart : putToPlasmaPart ids nodeIp idx st p with
    | error e => rw [hpart] at h; exact Except.noConfusion h
    | ok stp =>
      obtain ⟨st1, pair⟩ := stp
      rw [hpart] at h
      dsimp only at h
      cases hrest : putToPlasmaAll ids nodeIp (idx + 1) st1 ps with
      | error e => rw [hrest] at h; exact Except.noConfusion h
      | ok stp2 =>
        obtain ⟨st2, pairs2⟩ := stp2
        rw [hrest] at h
        injection h with h1
        injection h1 with h2 h3
        obtain ⟨t, _, _, _, hmono⟩ :=
          putToPlasmaPart_step ids nodeIp idx st st1 p pair hpart
        rw [← h2]
        exact ih (idx + 1) st1 st2 pairs2 hrest oid (hmono oid hc)

theorem putToPlasmaAll_idem (ids : List Nat) (nodeIp : Nat → String) (ps : RDD PyObj) :
    ∀ (idx : Nat) (st st' : PlasmaStore) (pairs : List (Nat × String)),
      putToPlasmaAll ids nodeIp idx st ps = Except.ok (st', pairs) →
      putToPlasmaAll ids nodeIp idx st' ps = Except.ok (st', pairs) := by
  induction ps with
  | nil =>
    intro idx st st' pairs h
    unfold putToPlasmaAll at h ⊢
    injection h with h1
    injection h1 with h2 h3
    rw [← h3]
  | cons p ps ih =>
    intro idx st st' pairs h
    rw [putToPlasmaAll_cons] at h
    cases hpart : putToPlasmaPart ids nodeIp idx st p with
    | error e => rw [hpart] at h; exact Except.noConfusion h
    | ok stp =>
      obtain ⟨st1, pair⟩ := stp
      rw [hpart] at h
      dsimp only at h
      cases hrest : putToPlasmaAll ids nodeIp (idx + 1) st1 ps with
      | error e => rw [hrest] at h; exact Except.noConfusion h
      | ok stp2 =>
        obtain ⟨st2, pairs2⟩ := stp2
        rw [hrest] at h
        injection h with h1
        injection h1 with h2 h3
        obtain ⟨t, hids, hpair, hc1, _⟩ :=
          putToPlasmaPart_step ids nodeIp idx st st1 p pair hpart
        have hcfin : st'.containsId t = true := by
          rw [← h2]
          exact putToPlasmaAll_mono ids nodeIp ps (idx + 1) st1 st2 pairs2 hrest t hc1
        have hrest2 : putToPlasmaAll ids nodeIp (idx + 1) st' ps = Except.ok (st', pairs2) := by
          rw [← h2]
          exact ih (idx + 1) st1 st2 pairs2 hrest
        rw [putToPlasmaAll_cons,
          putToPlasmaPart_skip ids nodeIp idx st' p t hids hcfin]
        dsimp only
        rw [hrest2, ← h3, hpair]

theorem putToPlasmaAll_ok (ids : List Nat) (nodeIp : Nat → String) (ps : RDD PyObj) :
    ∀ (idx : Nat) (st : PlasmaStore), idx + ps.length ≤ ids.length →
      ∃ st' pairs, putToPlasmaAll ids nodeIp idx st ps = Except.ok (st', pairs) := by
  induction ps with
  | nil => intro idx st _; exact ⟨st, [], rfl⟩
  | cons p ps ih =>
    intro idx st hlen
    have hidx : idx < ids.length := by
      simp only [List.length_cons] at hlen
      omega
    have hids : ids[idx]? = some ids[idx] := List.getElem?_eq_getElem hidx
    obtain ⟨st1, hpart⟩ : ∃ st1, putToPlasmaPart ids nodeIp idx st p =
        Except.ok (st1, (ids[idx], nodeIp idx)) := by
      cases hct : st.containsId ids[idx] with
      | true => exact ⟨st, putToPlasmaPart_skip ids nodeIp idx st p _ hids hct⟩
      | false =>
        exact ⟨(st.putObj ids[idx] p).2, putToPlasmaPart_write ids nodeIp idx st p _ hids hct⟩
    obtain ⟨st', pairs, hrest⟩ := ih (idx + 1) st1 (by
      simp only [List.length_cons] at hlen
      omega)
    refine ⟨st', (ids[idx], nodeIp idx) :: pairs, ?_⟩
    rw [putToPlasmaAll_cons, hpart]
    dsimp only
    rw [hrest]

theorem uncacheS_rdd (s : ShardsState) : s.uncacheS.rdd = s.rdd := by
  obtain ⟨rd, u, c, j⟩ := s
  cases u <;> cases c <;> cases j <;>
    simp [ShardsState.uncacheS, rddUnpersist]

theorem uncacheS_idem (s : ShardsState) : s.uncacheS.uncacheS = s.uncacheS := by
  obtain ⟨rd, u, c, j⟩ := s
  cases u <;> cases c <;> cases j <;>
    simp [ShardsState.uncacheS, rddUnpersist]

/-- C2: the handoff pre-generates `ids` before any write, skips partitions
whose identifier is already present in the store, and verifies written
identifiers; consequently running `to_ray` twice on the same source with
the same pre-generated identifiers leaves the store exactly as after the
first run (no duplicate entries) and returns identical partition
references, so the second attempt's `collect()` equals the first's. -/
theorem spec_c2_to_ray_idempotent (ids : List Nat) (nodeIp : Nat → String) (addr : String)
    (st : PlasmaStore) (s : ShardsState) (hlen : s.rdd.length ≤ ids.length) :
    ∃ st1 s1 parts1,
      toRay ids nodeIp addr st s = Except.ok (st1, s1, parts1) ∧
      toRay ids nodeIp addr st1 s1 = Except.ok (st1, s1, parts1) ∧
      ∀ st2 s2 parts2, toRay ids nodeIp addr st1 s1 = Except.ok (st2, s2, parts2) →
        st2 = st1 ∧ rayCollect st2 parts2 = rayCollect st1 parts1 := by
  obtain ⟨st1, pairs, hput⟩ := putToPlasmaAll_ok ids nodeIp s.rdd 0 st (by omega)
  have hrun1 : toRay ids nodeIp addr st s = Except.ok (st1, s.uncacheS,
      (sortByIp pairs).map (fun idip => ⟨idip.1, idip.2, addr⟩)) := by
    unfold toRay
    rw [hput]
  have hput2 : putToPlasmaAll ids nodeIp 0 st1 s.uncacheS.rdd = Except.ok (st1, pairs) := by
    rw [uncacheS_rdd]
    exact putToPlasmaAll_idem ids nodeIp s.rdd 0 st st1 pairs hput
  have hrun2 : toRay ids nodeIp addr st1 s.uncacheS = Except.ok (st1, s.uncacheS.uncacheS,
      (sortByIp pairs).map (fun idip => ⟨idip.1, idip.2, addr⟩)) := by
    unfold toRay
    rw [hput2]
  rw [uncacheS_idem] at hrun2
  refine ⟨st1, s.uncacheS, (sortByIp pairs).map (fun idip => ⟨idip.1, idip.2, addr⟩),
    hrun1, hrun2, ?_⟩
  intro st2 s2 parts2 h2
  rw [hrun2] at h2
  injection h2 with h1
  injection h1 with ha hb
  injection hb with hb1 hb2
  rw [← ha, ← hb2]
  exact ⟨rfl, rfl⟩

/-- Witness for C2 at a concrete one-partition collection. -/
theorem spec_c2_to_ray_idempotent_witness :
    ∃ st1 s1 parts1,
      toRay [7] (fun _ => "ip0") "addr0" ⟨[]⟩ (mkShards [[PyObj.int 1]] false) =
        Except.ok (st1, s1, parts1) ∧
      toRay [7] (fun _ => "ip0") "addr0" st1 s1 = Except.ok (st1, s1, parts1) ∧
      ∀ st2 s2 parts2, toRay [7] (fun _ => "ip0") "addr0" st1 s1 =
          Except.ok (st2, s2, parts2) →
        st2 = st1 ∧ rayCollect st2 parts2 = rayCollect st1 parts1 :=
  spec_c2_to_ray_idempotent [7] (fun _ => "ip0") "addr0" ⟨[]⟩
    (mkShards [[PyObj.int 1]] false) (by decide)

theorem arraySplitGo_length {α : Type} (l : Nat) :
    ∀ (k r : Nat) (xs : List α), (arraySplitGo l k r xs).length = k := by
  intro k
  induction k with
  | zero => intro r xs; rfl
  | succ m ih =>
    intro r xs
    unfold arraySplitGo
    by_cases hr : 0 < r
    · rw [if_pos hr]
      simp [ih]
    · rw [if_neg hr]
      simp [ih]

theorem arraySplitGo_flatten {α : Type} (l : Nat) :
    ∀ (k r : Nat) (xs : List α), r ≤ k →
      (arraySplitGo l k r xs).flatten = xs.take (k * l + r) := by
  intro k
  induction k with
  | zero =>
    intro r xs hr
    have hr0 : r = 0 := by omega
    subst hr0
    show ([] : List (List α)).flatten = List.take (0 * l + 0) xs
    simp
  | succ m ih =>
    intro r xs hr
    unfold arraySplitGo
    cases r with
    | zero =>
      rw [if_neg (by omega)]
      rw [List.flatten_cons, ih 0 (xs.drop l) (by omega)]
      rw [Nat.add_zero, Nat.add_zero]
      rw [show (m + 1) * l = l + m * l by ring]
      exact (List.take_add xs l (m * l)).symm
    | succ r2 =>
      rw [if_pos (by omega)]
      rw [List.flatten_cons]
      have hr2 : r2 + 1 - 1 = r2 := by omega
      rw [hr2, ih r2 (xs.drop (l + 1)) (by omega)]
      rw [show (m + 1) * l + (r2 + 1) = (l + 1) + (m * l + r2) by ring]
      exact (List.take_add xs (l + 1) (m * l + r2)).symm

theorem arraySplit_flatten {α : Type} (xs : List α) (n : Nat) (hn : 0 < n) :
    (arraySplit xs n).flatten = xs := by
  unfold arraySplit
  rw [arraySplitGo_flatten (xs.length / n) n (xs.length % n) xs
    (Nat.le_of_lt (Nat.mod_lt _ hn))]
  rw [Nat.div_add_mod, List.take_length]

theorem arraySplit_length {α : Type} (xs : List α) (n : Nat) :
    (arraySplit xs n).length = n := arraySplitGo_length _ n _ xs

theorem arraySplitGo_mem_length {α : Type} (l : Nat) :
    ∀ (k r : Nat) (xs : List α), ∀ c ∈ arraySplitGo l k r xs, c.length ≤ l + 1 := by
  intro k
  induction k with
  | zero => intro r xs c hc; simp [arraySplitGo] at hc
  | succ m ih =>
    intro r xs c hc
    unfold arraySplitGo at hc
    by_cases hr : 0 < r
    · rw [if_pos hr] at hc
      rcases List.mem_cons.mp hc with hc | hc
      · subst hc; simp [List.length_take]
      · exact ih (r - 1) (xs.drop (l + 1)) c hc
    · rw [if_neg hr] at hc
      rcases List.mem_cons.mp hc with hc | hc
      · subst hc
        simp only [List.length_take]
        omega
      · exact ih 0 (xs.drop l) c hc

theorem arraySplit_mem_length {α : Type} (xs : List α) (n : Nat) :
    ∀ c ∈ arraySplit xs n, c.length ≤ xs.length / n + 1 :=
  arraySplitGo_mem_length _ n _ xs

/-- C6: `XShards.partition` with `total_core_num = n` splits the leading
dimension of an array input into `n` near-even ordered sections whose
concatenation, in partition order, is the original data; any input that is
neither an array of rank >= 1 nor a list/tuple/dict structure fails; in
particular, `partition` of the homogeneous array `[1,2,3,4]` with two total
cores yields a 2-partition collection whose collected content concatenates
back to `[1,2,3,4]` (while the same four scalars as a bare Python `list`
make `len()` fail on an int leaf). -/
theorem spec_c6_partition (n : Nat) (hn : 0 < n) (dt : String) (xs : PyList) :
    (∃ out, partitionX n (PyObj.ndarr dt xs) = Except.ok out ∧
      numPartitionsR out = n ∧
      ((collectR out).map ndItemsOf).flatten = xs.toList ∧
      ∀ a ∈ collectR out, (ndItemsOf a).length ≤ xs.toList.length / n + 1) ∧
    (∀ d : PyObj, (∀ dt2 xs2, d ≠ PyObj.ndarr dt2 xs2) → isStructType d = false →
      ∃ e, partitionX n d = Except.error e) ∧
    partitionX 2 (PyObj.ndarr "int64" (.cons (.int 1) (.cons (.int 2)
        (.cons (.int 3) (.cons (.int 4) .nil))))) = Except.ok
      [[PyObj.ndarr "int64" (.cons (.int 1) (.cons (.int 2) .nil))],
       [PyObj.ndarr "int64" (.cons (.int 3) (.cons (.int 4) .nil))]] ∧
    partitionX 2 (PyObj.pylist (.cons (.int 1) (.cons (.int 2)
        (.cons (.int 3) (.cons (.int 4) .nil))))) =
      Except.error (.typeError "object of type int has no len") := by
  refine ⟨?_, ?_, by decide, by decide⟩
  · refine ⟨_, rfl, ?_, ?_, ?_⟩
    · exact balancedChunks_length n _
    · unfold collectR parallelizeR
      rw [balancedChunks_flatten _ _ hn, List.map_map]
      have hmap : ((arraySplit xs.toList n).map
          (ndItemsOf ∘ fun p => PyObj.ndarr dt (PyList.ofList p))) =
          (arraySplit xs.toList n).map id := by
        refine List.map_congr_left ?_
        intro p _
        show ndItemsOf (PyObj.ndarr dt (PyList.ofList p)) = p
        simp [ndItemsOf, PyList.toList_ofList]
      rw [hmap, List.map_id]
      exact arraySplit_flatten xs.toList n hn
    · intro a ha
      unfold collectR parallelizeR at ha
      rw [balancedChunks_flatten _ _ hn] at ha
      rcases List.mem_map.mp ha with ⟨p, hp, rfl⟩
      have := arraySplit_mem_length xs.toList n p hp
      simpa [ndItemsOf, PyList.toList_ofList] using this
  · intro d hnd hs
    cases d with
    | ndarr dt2 xs2 => exact absurd rfl (hnd dt2 xs2)
    | ndscalar dt2 v => exact ⟨_, rfl⟩
    | int m => exact ⟨_, rfl⟩
    | str s => exact ⟨_, rfl⟩
    | pylist l => simp [isStructType] at hs
    | tup l => simp [isStructType] at hs
    | pydict ks vs => simp [isStructType] at hs
    | df c dts rows => exact ⟨_, rfl⟩

/-- Witness for C6 at the concrete four-element array with two cores. -/
theorem spec_c6_partition_witness :
    (∃ out, partitionX 2 (PyObj.ndarr "int64" (.cons (.int 1) (.cons (.int 2)
        (.cons (.int 3) (.cons (.int 4) .nil))))) = Except.ok out ∧
      numPartitionsR out = 2 ∧
      ((collectR out).map ndItemsOf).flatten =
        (PyList.cons (PyObj.int 1) (.cons (.int 2)
          (.cons (.int 3) (.cons (.int 4) .nil)))).toList ∧
      ∀ a ∈ collectR out, (ndItemsOf a).length ≤
        (PyList.cons (PyObj.int 1) (.cons (.int 2)
          (.cons (.int 3) (.cons (.int 4) .nil)))).toList.length / 2 + 1) ∧
    (∀ d : PyObj, (∀ dt2 xs2, d ≠ PyObj.ndarr dt2 xs2) → isStructType d = false →
      ∃ e, partitionX 2 d = Except.error e) ∧
    partitionX 2 (PyObj.ndarr "int64" (.cons (.int 1) (.cons (.int 2)
        (.cons (.int 3) (.cons (.int 4) .nil))))) = Except.ok
      [[PyObj.ndarr "int64" (.cons (.int 1) (.cons (.int 2) .nil))],
       [PyObj.ndarr "int64" (.cons (.int 3) (.cons (.int 4) .nil))]] ∧
    partitionX 2 (PyObj.pylist (.cons (.int 1) (.cons (.int 2)
        (.cons (.int 3) (.cons (.int 4) .nil))))) =
      Except.error (.typeError "object of type int has no len") :=
  spec_c6_partition 2 (by decide) "int64"
    (.cons (.int 1) (.cons (.int 2) (.cons (.int 3) (.cons (.int 4) .nil))))
